/-
  Verification of the Vsqlite3 wrapper (Include/Vsqlite3/Vsqlite3.hpp).

  Shallow embedding: the wrapper classes (Handle, SqliteException, Database,
  Statement) and the Binding conversion rules are translated into Lean
  definitions.  The wrapped SQLite engine itself is not part of the
  repository; its primitives (open, prepare, step, reset, clear_bindings,
  bind_*, column_*) are modelled from the external-interface contract the
  spec gives for them (spec sections 4.5 and 6): a compiled statement holds a
  fixed list of result rows; step produces them in order and then reports
  done; reset rewinds to the start; bindings live in a slot table.  Each
  engine call additionally records a ghost event so that call order and call
  counts are observable in theorems.
-/
import Mathlib

namespace Vsqlite3

/-- Engine status codes used by the wrapper (from sqlite3.h). -/
def SQLITE_OK : Int := 0

/-- Status code: sqlite3_step produced a result row. -/
def SQLITE_ROW : Int := 100

/-- Status code: sqlite3_step finished with no more rows. -/
def SQLITE_DONE : Int := 101

/-- SQL values as stored by the engine (storage classes; REAL omitted, no
claim needs it). -/
inductive Val where
  | null
  | int (i : Int)
  | text (s : String)
  | blob (b : List Nat)
deriving DecidableEq

/-- Ghost trace events: one per engine primitive invoked by the wrapper. -/
inductive StEvent where
  | reset
  | clearBindings
  | bind (i : Nat) (v : Val)
  | step
deriving DecidableEq

/-- State of a prepared statement: the wrapper fields (m_canFetch) together
with the engine-side statement state modelled from the spec (result rows,
current row, binding slots) and the ghost event trace. -/
structure Statement where
  allRows : List (List Val)
  pending : List (List Val)
  row : Option (List Val)
  bindings : List (Nat × Val)
  mCanFetch : Bool
  events : List StEvent
deriving DecidableEq

/-- Engine primitive sqlite3_step, modelled from the spec (section 6): the
next pending row becomes current and the call reports SQLITE_ROW; with no
pending rows it reports SQLITE_DONE. -/
def engineStep (st : Statement) : Statement × Int :=
  match st.pending with
  | r :: rest =>
      ({ st with pending := rest, row := some r,
                 events := st.events ++ [StEvent.step] }, SQLITE_ROW)
  | [] =>
      ({ st with row := none,
                 events := st.events ++ [StEvent.step] }, SQLITE_DONE)

/-- Engine primitive sqlite3_reset, modelled from the spec: rewinds the
statement so that all result rows are pending again. -/
def engineReset (st : Statement) : Statement × Int :=
  ({ st with pending := st.allRows, row := none,
             events := st.events ++ [StEvent.reset] }, SQLITE_OK)

/-- Engine primitive sqlite3_clear_bindings, modelled from the spec: clears
the binding slot table. -/
def engineClearBindings (st : Statement) : Statement × Int :=
  ({ st with bindings := [],
             events := st.events ++ [StEvent.clearBindings] }, SQLITE_OK)

/-- Engine bind primitive (sqlite3_bind_*), modelled from the spec: stores
the value in slot i, replacing any previous binding for that slot. -/
def engineBind (st : Statement) (i : Nat) (v : Val) : Statement × Int :=
  ({ st with bindings := (i, v) :: st.bindings.filter (fun p => p.1 ≠ i),
             events := st.events ++ [StEvent.bind i v] }, SQLITE_OK)

/-- Engine-side lookup of a binding slot (specification helper). -/
def lookupB : List (Nat × Val) → Nat → Option Val
  | [], _ => none
  | (k, v) :: rest, i => if i = k then some v else lookupB rest i

/-- Statement::Reset: sqlite3_reset, then m_canFetch = false.  (The raise on
a non-OK status cannot fire in this model: the modelled engine reset always
reports SQLITE_OK.) -/
def Statement.Reset (st : Statement) : Statement :=
  { (engineReset st).1 with mCanFetch := false }

/-- Statement::Step: sqlite3_step, then m_canFetch = (res == SQLITE_ROW).
(The modelled engine step reports only SQLITE_ROW or SQLITE_DONE, so the
raise branch cannot fire here; stepWithStatus below models the body over an
arbitrary status.) -/
def Statement.Step (st : Statement) : Statement :=
  let r := engineStep st
  { r.1 with mCanFetch := r.2 == SQLITE_ROW }

/-- Statement::Step body over an arbitrary engine status res and the value
of m_canFetch before the call.  Returns (raised, m_canFetch afterwards).
In the source the throw happens before the assignment to m_canFetch, so on
a raise the flag keeps its prior value. -/
def stepWithStatus (res : Int) (mCanFetch : Bool) : Bool × Bool :=
  if res ≠ SQLITE_ROW ∧ res ≠ SQLITE_DONE then (true, mCanFetch)
  else (false, res == SQLITE_ROW)

/-- Statement::Unbind: sqlite3_clear_bindings (always SQLITE_OK here). -/
def Statement.Unbind (st : Statement) : Statement :=
  (engineClearBindings st).1

/-- Statement::Bind at one explicit index (Bind of a single argument):
delegates to the engine bind primitive for the argument's type. -/
def Statement.bindAt (st : Statement) (i : Nat) (v : Val) : Statement :=
  (engineBind st i v).1

/-- Variadic Statement::Bind recursion: binds the first argument at index i,
then the rest at i+1, i+2, ... (one argument per recursion step). -/
def Statement.bindFrom : Statement → Nat → List Val → Statement
  | st, _, [] => st
  | st, i, v :: vs => Statement.bindFrom (st.bindAt i v) (i + 1) vs

/-- Statement::Bind(args...): starts the recursion at parameter index 1. -/
def Statement.Bind (st : Statement) (args : List Val) : Statement :=
  st.bindFrom 1 args

/-- Engine-side current result row (what sqlite3_column_* reads from). -/
def Statement.currentRow (st : Statement) : List Val :=
  st.row.getD []

/-- Variadic Statement::Column recursion over the current row r: extracts
column c into the first output argument, then c+1, c+2, ... into the rest;
the empty overload extracts nothing.  Reading a column index past the end of
the row yields NULL (engine behaviour, spec section 4.4: extraction is
infallible). -/
def colsFrom (r : List Val) : Nat → List Val → List Val
  | _, [] => []
  | c, _ :: rest => r.getD c Val.null :: colsFrom r (c + 1) rest

/-- Statement::Column(args...): starts the recursion at column index 0. -/
def Statement.Column (st : Statement) (args : List Val) : List Val :=
  colsFrom st.currentRow 0 args

/-- Statement::Execute(args...): Reset, Unbind, Bind(args...), Step.  With
an empty argument list the bind recursion contributes nothing, matching the
zero-argument Execute overload (Reset, Unbind, Step). -/
def Statement.Execute (st : Statement) (args : List Val) : Statement :=
  (((st.Reset).Unbind).Bind args).Step

/-- Statement::Fetch(args...): if m_canFetch is false, Step once; if
m_canFetch then holds, extract via Column, clear m_canFetch and return true;
otherwise return false with the output arguments unchanged. -/
def Statement.Fetch (st : Statement) (args : List Val) : Statement × Bool × List Val :=
  let st1 := if st.mCanFetch then st else st.Step
  if st1.mCanFetch then
    ({ st1 with mCanFetch := false }, true, st1.Column args)
  else
    (st1, false, args)

/-- State of a freshly prepared statement whose compiled query has result
set rs (what the Statement constructor produces on success). -/
def Statement.prepared (rs : List (List Val)) : Statement :=
  { allRows := rs, pending := rs, row := none, bindings := [],
    mCanFetch := false, events := [] }

/-- Iterated Fetch: performs n Fetch calls, each with the same output
argument template, collecting the returned flag and outputs. -/
def runFetch (tmpl : List Val) : Statement → Nat → List (Bool × List Val)
  | _, 0 => []
  | st, n + 1 =>
      let r := st.Fetch tmpl
      (r.2.1, r.2.2) :: runFetch tmpl r.1 n

/-- Expected event sequence of the variadic bind recursion (specification
helper for stating the Execute trace). -/
def bindEvents : Nat → List Val → List StEvent
  | _, [] => []
  | i, v :: vs => StEvent.bind i v :: bindEvents (i + 1) vs

/-- Handle of Vsqlite3.hpp: the held value m_handle plus whether the
std::function m_releaseFn is non-null.  The release function always receives
the held value; its invocations are reported as a list of released values.
(Copy construction and copy assignment are deleted in the source; the
self-assignment guard in operator= makes self-move a no-op, so moveAssign
below models the two-distinct-objects case.) -/
structure Handle (T : Type) where
  mHandle : T
  mReleaseFn : Bool
deriving DecidableEq

/-- Handle::Get: returns the held value without transferring ownership. -/
def Handle.Get {T : Type} (h : Handle T) : T :=
  h.mHandle

/-- Handle::Reset: sets m_handle to the invalid sentinel and m_releaseFn to
nullptr. -/
def Handle.Reset {T : Type} (inv : T) (_h : Handle T) : Handle T :=
  { mHandle := inv, mReleaseFn := false }

/-- Handle::Release: if the held value is not the sentinel and a release
function is present, invokes the release function on the value, resets, and
returns true; otherwise does nothing and returns false.  The third component
lists the values the release function was invoked on. -/
def Handle.Release {T : Type} [DecidableEq T] (inv : T) (h : Handle T) :
    Handle T × Bool × List T :=
  if h.mHandle ≠ inv ∧ h.mReleaseFn = true then
    (h.Reset inv, true, [h.mHandle])
  else
    (h, false, [])

/-- Handle move assignment (operator=): releases the destination, adopts the
source fields, resets the source.  Returns (new destination, new source,
values released). -/
def Handle.moveAssign {T : Type} [DecidableEq T] (inv : T)
    (dst src : Handle T) : Handle T × Handle T × List T :=
  let rel := dst.Release inv
  ({ mHandle := src.mHandle, mReleaseFn := src.mReleaseFn },
   src.Reset inv, rel.2.2)

/-- Handle destructor: performs Release (and a Reset when Release did not
fire, which does not invoke the release function).  Returns the values the
release function was invoked on. -/
def Handle.destruct {T : Type} [DecidableEq T] (inv : T) (h : Handle T) :
    List T :=
  (h.Release inv).2.2

/-- SqliteException: carries a message and the extended error code it was
constructed with. -/
structure SqliteException where
  message : String
  mExtendedErrorCode : Int

/-- SqliteException::GetExtendedErrorCode. -/
def SqliteException.GetExtendedErrorCode (e : SqliteException) : Int :=
  e.mExtendedErrorCode

/-- SqliteException::GetPrimaryErrorCode: m_extendedErrorCode & 0xFF. -/
def SqliteException.GetPrimaryErrorCode (e : SqliteException) : Int :=
  Int.land e.mExtendedErrorCode 255

/-- Database connection state relevant to statement preparation: the
connection error state (sqlite3_errmsg, sqlite3_extended_errcode) and the
engine prepare primitive, modelled from the spec (section 6) as the status
sqlite3_prepare_v2 reports for a given query text together with the result
set of the compiled query. -/
structure Database where
  errMsg : String
  errCode : Int
  prepStatus : String → Int
  prepRows : String → List (List Val)

/-- Connection-level events: engine calls made during statement creation. -/
inductive DbEvent where
  | prepare (sql : String)
deriving DecidableEq

/-- Failures raised by the wrapper: std::invalid_argument (no engine error
code) or SqliteException (message and extended code read from the
connection). -/
inductive VErr where
  | invalidArgument (msg : String)
  | sqliteError (msg : String) (extCode : Int)
deriving DecidableEq

/-- Engine error code carried by a failure: none for invalid_argument. -/
def VErr.engineErrorCode : VErr → Option Int
  | .invalidArgument _ => none
  | .sqliteError _ c => some c

/-- Statement constructor: rejects empty query text with invalid_argument
before any engine call; otherwise calls sqlite3_prepare_v2 and on a non-OK
status raises SqliteException built from the connection error state.  The
second component lists the engine calls made. -/
def Statement.create (db : Database) (sql : String) :
    Except VErr Statement × List DbEvent :=
  if sql.isEmpty then
    (Except.error (VErr.invalidArgument "sql: Empty string."), [])
  else
    let res := db.prepStatus sql
    if res = SQLITE_OK then
      (Except.ok (Statement.prepared (db.prepRows sql)), [DbEvent.prepare sql])
    else
      (Except.error (VErr.sqliteError db.errMsg db.errCode), [DbEvent.prepare sql])

/-- Database::Execute(sql, args...): PrepareStatement(sql).Execute(args...)
(PrepareStatement delegates to the Statement constructor). -/
def Database.Execute (db : Database) (sql : String) (args : List Val) :
    Except VErr Statement × List DbEvent :=
  match Statement.create db sql with
  | (Except.error e, evs) => (Except.error e, evs)
  | (Except.ok st, evs) => (Except.ok (st.Execute args), evs)

/-- NUL terminator character. -/
def nulChar : Char := Char.ofNat 0

/-- Semantics of sqlite3_bind_text on a character buffer and a length
parameter, modelled from the engine contract the spec delegates to: a
negative length binds the bytes up to the first NUL terminator; a
non-negative length binds exactly that many bytes. -/
def bindTextBytes (buf : List Char) (len : Int) : List Char :=
  if len < 0 then buf.takeWhile (fun c => c != nulChar)
  else buf.take len.toNat

/-- A std::string_view value: the underlying character buffer starting at
data() (up to the end of the accessible allocation, including any NUL
terminator that follows), and the view length size(). -/
structure CharView where
  buf : List Char
  len : Nat
deriving DecidableEq

/-- Characters of the view: exactly len characters from data(). -/
def CharView.chars (v : CharView) : List Char :=
  v.buf.take v.len

/-- Binding of const char*: sqlite3_bind_text(stmt, index, arg, -1,
SQLITE_TRANSIENT). -/
def bindConstCharPtr (buf : List Char) : List Char :=
  bindTextBytes buf (-1)

/-- Binding of std::string_view: delegates to the const char* rule with
arg.data() as the pointer (the view length is not passed on). -/
def bindStringView (v : CharView) : List Char :=
  bindConstCharPtr v.buf

/-- Binding of char[Len] (fixed-size text literal):
sqlite3_bind_text(stmt, index, arg, Len - 1, SQLITE_TRANSIENT), where arr
lists all Len array elements. -/
def bindCharArray (arr : List Char) : List Char :=
  bindTextBytes arr (Int.ofNat arr.length - 1)

/-- Binding of std::string: delegates to the const char* rule with c_str(),
whose buffer is the string contents followed by a NUL terminator. -/
def bindStdString (contents : List Char) : List Char :=
  bindConstCharPtr (contents ++ [nulChar])

/-- A Type Conversion Registry entry for value type T: what value the bind
rule stores in the engine, and what value the column rule produces from the
stored value. -/
structure Rule (T : Type) where
  bind : T → Val
  column : Val → T

/-- Binding of std::optional of T: a present value delegates to the rule for
T, an absent value binds SQL NULL; reading a NULL column yields an absent
optional, otherwise the rule for T reads the value. -/
def optRule {T : Type} (r : Rule T) : Rule (Option T) where
  bind := fun a =>
    match a with
    | some v => r.bind v
    | none => Val.null
  column := fun v =>
    if v = Val.null then none else some (r.column v)

/-- Binding of a 64-bit integral type: binds sqlite3_int64, reads
sqlite3_column_int64.  Reading a non-integer storage class follows the
engine coercion, modelled from the spec (section 4.4) for the NULL case
(NULL reads as 0) and simplified to 0 for the remaining classes. -/
def int64Rule : Rule Int where
  bind := fun i => Val.int i
  column := fun v =>
    match v with
    | Val.int i => i
    | _ => 0

/-
  Helper lemmas (shared across the claim theorems below).
-/

theorem beq_row_row : (SQLITE_ROW == SQLITE_ROW) = true := by decide

theorem beq_done_row : (SQLITE_DONE == SQLITE_ROW) = false := by decide

theorem step_bindings (st : Statement) : (st.Step).bindings = st.bindings := by
  cases hp : st.pending <;> simp [Statement.Step, engineStep, hp]

theorem step_events (st : Statement) :
    (st.Step).events = st.events ++ [StEvent.step] := by
  cases hp : st.pending <;> simp [Statement.Step, engineStep, hp]

theorem bindFrom_events (vs : List Val) (st : Statement) (k : Nat) :
    (st.bindFrom k vs).events = st.events ++ bindEvents k vs := by
  induction vs generalizing st k with
  | nil => simp [Statement.bindFrom, bindEvents]
  | cons v vs ih =>
      simp [Statement.bindFrom, bindEvents, ih, Statement.bindAt, engineBind]

theorem bindFrom_mCanFetch (vs : List Val) (st : Statement) (k : Nat) :
    (st.bindFrom k vs).mCanFetch = st.mCanFetch := by
  induction vs generalizing st k with
  | nil => rfl
  | cons v vs ih => simp [Statement.bindFrom, ih, Statement.bindAt, engineBind]

theorem lookupB_cons (k : Nat) (v : Val) (t : List (Nat × Val)) (i : Nat) :
    lookupB ((k, v) :: t) i = if i = k then some v else lookupB t i := rfl

theorem lookupB_filter_ne (l : List (Nat × Val)) {i j : Nat} (h : i ≠ j) :
    lookupB (l.filter (fun p => p.1 ≠ j)) i = lookupB l i := by
  induction l with
  | nil => rfl
  | cons a t ih =>
      obtain ⟨k, v⟩ := a
      by_cases hkj : k = j
      · subst hkj
        have hfc : List.filter (fun p => p.1 ≠ k) ((k, v) :: t)
            = List.filter (fun p => p.1 ≠ k) t := by
          rw [List.filter_cons, if_neg (by simp)]
        rw [hfc, ih, lookupB_cons, if_neg h]
      · have hfc : List.filter (fun p => p.1 ≠ j) ((k, v) :: t)
            = (k, v) :: List.filter (fun p => p.1 ≠ j) t := by
          rw [List.filter_cons, if_pos (by simp [hkj])]
        rw [hfc, lookupB_cons, lookupB_cons, ih]

theorem lookupB_bindAt (st : Statement) (i j : Nat) (v : Val) :
    lookupB (st.bindAt j v).bindings i
      = if i = j then some v else lookupB st.bindings i := by
  have hb : (st.bindAt j v).bindings
      = (j, v) :: st.bindings.filter (fun p => p.1 ≠ j) := rfl
  rw [hb, lookupB_cons]
  by_cases hij : i = j
  · rw [if_pos hij, if_pos hij]
  · rw [if_neg hij, if_neg hij, lookupB_filter_ne _ hij]

theorem bindFrom_lookupB (vs : List Val) (st : Statement) (k i : Nat) :
    lookupB (st.bindFrom k vs).bindings i
      = if k ≤ i ∧ i < k + vs.length then vs[i - k]?
        else lookupB st.bindings i := by
  induction vs generalizing st k with
  | nil =>
      simp only [Statement.bindFrom, List.length_nil, Nat.add_zero]
      rw [if_neg (by omega)]
  | cons v vs ih =>
      simp only [Statement.bindFrom, List.length_cons]
      rw [ih]
      by_cases h1 : (k + 1) ≤ i ∧ i < (k + 1) + vs.length
      · rw [if_pos h1, if_pos (by omega)]
        have hik : i - k = (i - (k + 1)) + 1 := by omega
        rw [hik]
        simp
      · rw [if_neg h1, lookupB_bindAt]
        by_cases h2 : i = k
        · subst h2
          rw [if_pos rfl, if_pos (by omega)]
          simp
        · rw [if_neg h2, if_neg (by omega)]

theorem fetch_exhausted (st : Statement) (tmpl : List Val)
    (h1 : st.pending = []) (h2 : st.mCanFetch = false) :
    st.Fetch tmpl
      = ({ st with row := none, events := st.events ++ [StEvent.step],
                   mCanFetch := false }, false, tmpl) := by
  obtain ⟨a, p, r, b, c, e⟩ := st
  simp only at h1 h2
  subst h1
  subst h2
  simp [Statement.Fetch, Statement.Step, engineStep, beq_done_row]

theorem fetch_next_row (st : Statement) (tmpl : List Val) (r : List Val)
    (rest : List (List Val)) (h1 : st.pending = r :: rest)
    (h2 : st.mCanFetch = false) :
    st.Fetch tmpl
      = ({ st with pending := rest, row := some r,
                   events := st.events ++ [StEvent.step], mCanFetch := false },
         true, colsFrom r 0 tmpl) := by
  obtain ⟨a, p, rw0, b, c, e⟩ := st
  simp only at h1 h2
  subst h1
  subst h2
  simp [Statement.Fetch, Statement.Step, engineStep, beq_row_row,
        Statement.Column, Statement.currentRow]

theorem runFetch_exhausted (tmpl : List Val) (n : Nat) :
    ∀ st : Statement, st.pending = [] → st.mCanFetch = false →
      runFetch tmpl st n = List.replicate n (false, tmpl) := by
  induction n with
  | zero => intro st h1 h2; rfl
  | succ n ih =>
      intro st h1 h2
      rw [runFetch]
      simp only [fetch_exhausted st tmpl h1 h2]
      rw [List.replicate_succ]
      congr 1
      exact ih _ h1 rfl

theorem runFetch_pending (tmpl : List Val) :
    ∀ (rs : List (List Val)) (n : Nat) (st : Statement),
      st.pending = rs → st.mCanFetch = false →
      runFetch tmpl st (rs.length + n)
        = rs.map (fun r => (true, colsFrom r 0 tmpl))
          ++ List.replicate n (false, tmpl) := by
  intro rs
  induction rs with
  | nil =>
      intro n st h1 h2
      simpa using runFetch_exhausted tmpl n st h1 h2
  | cons r rest ih =>
      intro n st h1 h2
      have hlen : (r :: rest).length + n = (rest.length + n) + 1 := by
        simp [List.length_cons]
        omega
      rw [hlen, runFetch]
      simp only [fetch_next_row st tmpl r rest h1 h2]
      simp only [List.map_cons, List.cons_append]
      congr 1
      exact ih n _ rfl rfl

/-
  Claim theorems.
-/

/-- Claim C1: Fetch is a single-row-lookahead cursor step.  When no row is
available it performs exactly one Step (one engine step event); when a row
is available it performs none.  It returns true exactly when a row is
available after the conditional step (equivalently, when a row was already
available or a pending row existed); on true it extracts into the given
arguments via Column at consecutive 0-based positions and clears the
row-available flag, consuming exactly the first pending row; on false it
returns the output arguments unchanged and only the conditional step has
happened. -/
theorem fetch_single_lookahead (st : Statement) (args : List Val) :
    (st.mCanFetch = false →
      (st.Fetch args).1.events = st.events ++ [StEvent.step])
    ∧ (st.mCanFetch = true → (st.Fetch args).1.events = st.events)
    ∧ (st.Fetch args).2.1 = (st.mCanFetch || !st.pending.isEmpty)
    ∧ ((st.Fetch args).2.1 = true →
        (st.Fetch args).2.2
          = Statement.Column (if st.mCanFetch then st else st.Step) args
        ∧ (st.Fetch args).1.mCanFetch = false)
    ∧ ((st.Fetch args).2.1 = false →
        (st.Fetch args).2.2 = args
        ∧ (st.Fetch args).1 = (if st.mCanFetch then st else st.Step))
    ∧ (st.mCanFetch = false → (st.Fetch args).2.1 = true →
        (st.Fetch args).1.pending = st.pending.tail
        ∧ (st.Fetch args).1.row = st.pending.head?) := by
  obtain ⟨a, p, r, b, c, e⟩ := st
  cases c
  · cases p <;>
      simp [Statement.Fetch, Statement.Step, engineStep, beq_done_row,
            beq_row_row, Statement.Column, Statement.currentRow]
  · simp [Statement.Fetch, Statement.Column, Statement.currentRow]

/-- Witness for C1: on a freshly prepared statement with one row, Fetch
steps exactly once, returns true, delivers the row, and consumes it. -/
theorem fetch_single_lookahead_check :
    ((Statement.prepared [[Val.int 1]]).Fetch [Val.null]).1.events
      = (Statement.prepared [[Val.int 1]]).events ++ [StEvent.step]
    ∧ ((Statement.prepared [[Val.int 1]]).Fetch [Val.null]).1.pending
        = (Statement.prepared [[Val.int 1]]).pending.tail := by
  refine ⟨(fetch_single_lookahead (Statement.prepared [[Val.int 1]]) [Val.null]).1 rfl,
    ((fetch_single_lookahead (Statement.prepared [[Val.int 1]]) [Val.null]).2.2.2.2.2
      rfl (by decide)).1⟩

/-- Claim C10: Fetch with an empty argument pack advances the cursor exactly
as with arguments (same final state and same returned flag for every
argument list) while extracting nothing. -/
theorem fetch_empty_args (st : Statement) (args : List Val) :
    (st.Fetch []).1 = (st.Fetch args).1
    ∧ (st.Fetch []).2.1 = (st.Fetch args).2.1
    ∧ (st.Fetch []).2.2 = []
    ∧ (st.Fetch []).2.1 = (st.mCanFetch || !st.pending.isEmpty) := by
  obtain ⟨a, p, r, b, c, e⟩ := st
  cases c
  · cases p <;>
      simp [Statement.Fetch, Statement.Step, engineStep, beq_done_row,
            beq_row_row, Statement.Column, Statement.currentRow, colsFrom]
  · simp [Statement.Fetch, Statement.Column, Statement.currentRow, colsFrom]

/-- Claim C5: Execute(args...) performs exactly Reset, ClearBindings, the
binds at positions 1..n in argument order, then Step (with an empty
argument list this is Reset, ClearBindings, Step); afterwards the binding
table holds exactly the new arguments at 1-based positions, independent of
whatever was bound before — no partial-parameter reuse. -/
theorem execute_full_rebind (st : Statement) (args : List Val) (i : Nat) :
    (st.Execute args).events
      = st.events ++ [StEvent.reset, StEvent.clearBindings]
        ++ bindEvents 1 args ++ [StEvent.step]
    ∧ lookupB (st.Execute args).bindings i
      = (if 1 ≤ i then args[i - 1]? else none) := by
  constructor
  · show ((((st.Reset).Unbind).Bind args).Step).events = _
    rw [step_events]
    show (((st.Reset).Unbind).bindFrom 1 args).events ++ _ = _
    rw [bindFrom_events]
    simp [Statement.Reset, engineReset, Statement.Unbind, engineClearBindings]
  · show lookupB ((((st.Reset).Unbind).Bind args).Step).bindings i = _
    rw [step_bindings]
    show lookupB (((st.Reset).Unbind).bindFrom 1 args).bindings i = _
    rw [bindFrom_lookupB]
    have hb : ((st.Reset).Unbind).bindings = [] := rfl
    rw [hb]
    by_cases h1 : 1 ≤ i ∧ i < 1 + args.length
    · rw [if_pos h1, if_pos h1.1]
    · rw [if_neg h1]
      by_cases h2 : 1 ≤ i
      · rw [if_pos h2, List.getElem?_eq_none (by omega)]
        rfl
      · rw [if_neg h2]
        rfl

/-- Claim C8: across a whole result set, iterated Fetch from the prepared
(Idle) state returns true exactly once per result row, in result order,
delivering that row's columns, and then returns false on every further call
with no more rows materializing; Reset returns the cursor to Idle (all
result rows pending again, no current row, row-available flag cleared). -/
theorem fetch_cursor_state_machine (rs : List (List Val)) (tmpl : List Val)
    (n : Nat) (st : Statement) :
    runFetch tmpl (Statement.prepared rs) (rs.length + n)
      = rs.map (fun r => (true, colsFrom r 0 tmpl))
        ++ List.replicate n (false, tmpl)
    ∧ (st.Reset).pending = st.allRows
    ∧ (st.Reset).row = none
    ∧ (st.Reset).mCanFetch = false
    ∧ (st.Reset).allRows = st.allRows := by
  exact ⟨runFetch_pending tmpl rs n _ rfl rfl, rfl, rfl, rfl, rfl⟩

/-- Counterexample to claim C2: with the row-available flag true before the
call (reachable by calling Step directly after a row was produced), an
error status (21, SQLITE_MISUSE) raises but leaves the flag true — the
claim said the flag is false after every raise regardless of its prior
value.  In the source the throw precedes the assignment to m_canFetch. -/
theorem step_raise_flag_counterexample :
    (stepWithStatus 21 true).1 = true
    ∧ ¬((stepWithStatus 21 true).2 = false) := by
  decide

/-- Claim C2 (amended): a row-produced status sets the row-available flag
true and raises nothing; a done status sets it false and raises nothing;
any other status raises with the flag left unchanged from before the call;
and every wrapper-internal call site invokes Step with the flag already
false (Execute reaches Step on a state whose flag Reset cleared, and Fetch
steps only under a false flag), so the flag is false after a raise arising
there. -/
theorem step_status_amended (res : Int) (pre : Bool) (st : Statement)
    (args : List Val) :
    (res = SQLITE_ROW → stepWithStatus res pre = (false, true))
    ∧ (res = SQLITE_DONE → stepWithStatus res pre = (false, false))
    ∧ (res ≠ SQLITE_ROW → res ≠ SQLITE_DONE →
        stepWithStatus res pre = (true, pre))
    ∧ (((st.Reset).Unbind).Bind args).mCanFetch = false := by
  refine ⟨?_, ?_, ?_, ?_⟩
  · intro h
    subst h
    simp [stepWithStatus, SQLITE_ROW, SQLITE_DONE]
  · intro h
    subst h
    simp [stepWithStatus, SQLITE_ROW, SQLITE_DONE]
  · intro h1 h2
    simp [stepWithStatus, h1, h2]
  · show (((st.Reset).Unbind).bindFrom 1 args).mCanFetch = false
    rw [bindFrom_mCanFetch]
    rfl

/-- Witness for the amended C2: a misuse status raises and keeps the flag,
a row status reports a row. -/
theorem step_status_amended_check :
    stepWithStatus 21 false = (true, false)
    ∧ stepWithStatus 100 false = (false, true) := by
  exact ⟨(step_status_amended 21 false (Statement.prepared []) []).2.2.1
          (by decide) (by decide),
        (step_status_amended 100 false (Statement.prepared []) []).1 rfl⟩

/-- Claim C3, evaluated at the failing input: a std::string_view of length
3 over the buffer abcdef (NUL-terminated only at the end of the buffer) is
bound as the 6 bytes abcdef, not as the 3 view bytes abc — the view's
size() is discarded because Binding of std::string_view delegates to the
const char* rule, which passes length -1 to sqlite3_bind_text.  By
contrast the fixed-size text literal rule does pass a byte length and binds
exactly the literal's characters. -/
theorem stringView_bind_reads_past_view :
    bindStringView { buf := "abcdef".toList ++ [nulChar], len := 3 }
      = "abcdef".toList
    ∧ CharView.chars { buf := "abcdef".toList ++ [nulChar], len := 3 }
      = "abc".toList
    ∧ bindStringView { buf := "abcdef".toList ++ [nulChar], len := 3 }
      ≠ CharView.chars { buf := "abcdef".toList ++ [nulChar], len := 3 }
    ∧ bindCharArray ("abc".toList ++ [nulChar]) = "abc".toList := by
  decide

/-- Claim C4: the Handle ownership contract.  Release fires the release
function iff the held value is not the sentinel and a release function is
present; when it fires it releases exactly the held value and resets the
handle to the sentinel with no release function; on an already-empty handle
it is a no-op returning false; move-assignment releases the destination,
adopts the source fields and resets the source; destruction is an implicit
Release; a second Release after a Release never fires again (each resource
released at most once); and across a move followed by destruction of both
handles a transferred resource is released exactly once. -/
theorem handle_ownership_contract {T : Type} [DecidableEq T] (inv : T) :
    (∀ h : Handle T,
      ((h.Release inv).2.1 = true ↔ (h.mHandle ≠ inv ∧ h.mReleaseFn = true)))
    ∧ (∀ h : Handle T, (h.Release inv).2.1 = true →
        (h.Release inv).1 = { mHandle := inv, mReleaseFn := false }
        ∧ (h.Release inv).2.2 = [h.mHandle])
    ∧ (∀ h : Handle T, h.mHandle = inv → h.Release inv = (h, false, []))
    ∧ (∀ dst src : Handle T,
        Handle.moveAssign inv dst src
          = ({ mHandle := src.mHandle, mReleaseFn := src.mReleaseFn },
             { mHandle := inv, mReleaseFn := false }, (dst.Release inv).2.2))
    ∧ (∀ h : Handle T, Handle.destruct inv h = (h.Release inv).2.2)
    ∧ (∀ h : Handle T, (((h.Release inv).1).Release inv).2.2 = [])
    ∧ (∀ dst src : Handle T, src.mHandle ≠ inv → src.mReleaseFn = true →
        dst.mHandle ≠ src.mHandle →
        List.count src.mHandle
          ((Handle.moveAssign inv dst src).2.2
            ++ Handle.destruct inv (Handle.moveAssign inv dst src).1
            ++ Handle.destruct inv (Handle.moveAssign inv dst src).2.1) = 1) := by
  refine ⟨?_, ?_, ?_, ?_, ?_, ?_, ?_⟩
  · intro h
    by_cases hc : h.mHandle ≠ inv ∧ h.mReleaseFn = true <;>
      simp [Handle.Release, hc]
  · intro h hr
    by_cases hc : h.mHandle ≠ inv ∧ h.mReleaseFn = true
    · simp [Handle.Release, hc, Handle.Reset]
    · simp [Handle.Release, hc] at hr
  · intro h hc
    simp [Handle.Release, hc]
  · intro dst src
    rfl
  · intro h
    rfl
  · intro h
    by_cases hc : h.mHandle ≠ inv ∧ h.mReleaseFn = true
    · simp [Handle.Release, hc, Handle.Reset]
    · simp [Handle.Release, hc]
  · intro dst src h1 h2 h3
    have hmv : (Handle.moveAssign inv dst src).2.2 = (dst.Release inv).2.2 :=
      rfl
    have hd1 : Handle.destruct inv (Handle.moveAssign inv dst src).1
        = [src.mHandle] := by
      show ((Handle.mk src.mHandle src.mReleaseFn).Release inv).2.2 = _
      simp [Handle.Release, h1, h2]
    have hd2 : Handle.destruct inv (Handle.moveAssign inv dst src).2.1
        = [] := by
      show ((Handle.mk inv false).Release inv).2.2 = _
      simp [Handle.Release]
    rw [hmv, hd1, hd2]
    by_cases hc : dst.mHandle ≠ inv ∧ dst.mReleaseFn = true
    · simp [Handle.Release, hc, List.count_cons, List.count_append, h3]
    · simp [Handle.Release, hc, List.count_cons]

/-- Witness for C4: moving a live resource 5 out of a handle and destroying
both handles releases 5 exactly once. -/
theorem handle_ownership_contract_check :
    List.count (5 : Int)
      ((Handle.moveAssign 0 (Handle.mk 0 false) (Handle.mk 5 true)).2.2
        ++ Handle.destruct 0
            (Handle.moveAssign 0 (Handle.mk 0 false) (Handle.mk 5 true)).1
        ++ Handle.destruct 0
            (Handle.moveAssign 0 (Handle.mk 0 false) (Handle.mk 5 true)).2.1)
      = 1 := by
  exact (handle_ownership_contract (0 : Int)).2.2.2.2.2.2
    (Handle.mk 0 false) (Handle.mk 5 true) (by decide) rfl (by decide)

/-- Claim C6: constructing a Statement (directly or through
Database::Execute) with empty query text fails with invalid_argument before
any engine call, and that failure carries no engine error code; with
non-empty text the prepare primitive is invoked, and a non-success status
raises a SqliteException carrying the connection's error state. -/
theorem statement_create_rejects_empty (db : Database) (sql : String)
    (args : List Val) :
    (sql = "" →
      Statement.create db sql
        = (Except.error (VErr.invalidArgument "sql: Empty string."), [])
      ∧ Database.Execute db sql args
        = (Except.error (VErr.invalidArgument "sql: Empty string."), [])
      ∧ VErr.engineErrorCode (VErr.invalidArgument "sql: Empty string.")
          = none)
    ∧ (sql ≠ "" →
      (Statement.create db sql).2 = [DbEvent.prepare sql]
      ∧ (db.prepStatus sql ≠ SQLITE_OK →
          (Statement.create db sql).1
            = Except.error (VErr.sqliteError db.errMsg db.errCode)
          ∧ VErr.engineErrorCode (VErr.sqliteError db.errMsg db.errCode)
              = some db.errCode)) := by
  constructor
  · intro h
    subst h
    exact ⟨rfl, rfl, rfl⟩
  · intro h
    have hne : sql.isEmpty = false := by
      rw [Bool.eq_false_iff]
      intro hc
      exact h ((String.isEmpty_iff sql).mp hc)
    constructor
    · by_cases hp : db.prepStatus sql = SQLITE_OK <;>
        simp [Statement.create, hne, hp]
    · intro hp
      constructor
      · simp [Statement.create, hne, hp]
      · rfl

/-- Witness for C6: a connection whose prepare primitive reports status 1
with error state (boom, 14): empty text is rejected engine-free, and a
non-empty text propagates the connection's error state. -/
theorem statement_create_rejects_empty_check :
    Statement.create (Database.mk "boom" 14 (fun _ => 1) (fun _ => [])) ""
      = (Except.error (VErr.invalidArgument "sql: Empty string."), [])
    ∧ (Statement.create
        (Database.mk "boom" 14 (fun _ => 1) (fun _ => [])) "SELECT 1").1
      = Except.error (VErr.sqliteError "boom" 14) := by
  exact ⟨((statement_create_rejects_empty
            (Database.mk "boom" 14 (fun _ => 1) (fun _ => [])) "" []).1 rfl).1,
        (((statement_create_rejects_empty
            (Database.mk "boom" 14 (fun _ => 1) (fun _ => []))
            "SELECT 1" []).2 (by decide)).2 (by decide)).1⟩

/-- Counterexample to claim C7: for the supported element type
optional-of-int, the present value some none does not round-trip as the
element type does — binding it delegates to the inner optional rule, which
binds SQL NULL, and reading back yields an absent outer optional, while the
element type itself round-trips none to none (so the claim expected
some none back). -/
theorem optional_roundtrip_counterexample :
    (optRule (optRule int64Rule)).column
        ((optRule (optRule int64Rule)).bind (some (none : Option Int)))
      ≠ some ((optRule int64Rule).column
        ((optRule int64Rule).bind (none : Option Int))) := by
  decide

/-- Claim C7 (amended): binding an absent optional binds SQL NULL and a
NULL column reads back as absent; a present optional delegates to the
element rule on both sides; consequently a present optional-of-T
round-trips exactly as T does whenever T's bind rule does not itself
produce SQL NULL for the value (which holds for every non-optional
supported type), and an absent optional round-trips to absent. -/
theorem optional_rule_delegation {T : Type} (r : Rule T) :
    (optRule r).bind none = Val.null
    ∧ (∀ t : T, (optRule r).bind (some t) = r.bind t)
    ∧ (optRule r).column Val.null = none
    ∧ (∀ v : Val, v ≠ Val.null → (optRule r).column v = some (r.column v))
    ∧ (∀ t : T, r.bind t ≠ Val.null →
        (optRule r).column ((optRule r).bind (some t))
          = some (r.column (r.bind t)))
    ∧ (optRule r).column ((optRule r).bind none) = none := by
  refine ⟨rfl, fun t => rfl, rfl, ?_, ?_, rfl⟩
  · intro v hv
    simp [optRule, hv]
  · intro t ht
    simp [optRule, ht]

/-- Witness for the amended C7: a present optional int round-trips as the
int does. -/
theorem optional_rule_delegation_check :
    (optRule int64Rule).column ((optRule int64Rule).bind (some (5 : Int)))
      = some 5 := by
  have h := (optional_rule_delegation int64Rule).2.2.2.2.1 5 (by decide)
  simpa using h

/-- Claim C9: a failure constructed with any extended error code exposes
that extended code unchanged, and the derived primary code is the bitwise
and of the extended code with 0xFF — the low byte, i.e. the remainder mod
256 on nonnegative codes. -/
theorem sqliteException_primary_low_byte (msg : String) (ext : Int) (n : Nat) :
    (SqliteException.mk msg ext).GetExtendedErrorCode = ext
    ∧ (SqliteException.mk msg ext).GetPrimaryErrorCode = Int.land ext 255
    ∧ (SqliteException.mk msg (Int.ofNat n)).GetPrimaryErrorCode
        = Int.ofNat (n % 256) := by
  refine ⟨rfl, rfl, ?_⟩
  show Int.land (Int.ofNat n) 255 = Int.ofNat (n % 256)
  have h : Int.land (Int.ofNat n) 255 = Int.ofNat (n &&& 255) := rfl
  rw [h]
  congr 1
  have h2 : (255 : Nat) = 2 ^ 8 - 1 := by norm_num
  rw [h2, Nat.and_pow_two_sub_one_eq_mod]

end Vsqlite3
